import Mathlib

/-!
Shallow embedding of the render-flow traversal engine
(src/cocos2d/core/renderer/render-flow.js together with the mask
assemblers of src/unnamed/part_000), and proofs of the specification
claims about it.

The embedding keeps the source's names wherever Lean allows it.
JavaScript 32-bit bitmask arithmetic is modelled on `Nat` with an
explicit 32-bit mask where the source uses `~`.
-/

/-- Stage-flag constants from render-flow.js (`const LOCAL_TRANSFORM = 1 << 0;` etc.). -/
def DONOTHING : Nat := 0

/-- Bit 0: local-transform stage flag. -/
def LOCAL_TRANSFORM : Nat := 1

/-- Bit 1: world-transform stage flag. -/
def WORLD_TRANSFORM : Nat := 2

/-- Bit 2: update-render-data stage flag. -/
def UPDATE_RENDER_DATA : Nat := 4

/-- Bit 3: opacity stage flag. -/
def OPACITY : Nat := 8

/-- Bit 4: color stage flag. -/
def COLOR : Nat := 16

/-- Bit 5: render stage flag. -/
def RENDER : Nat := 32

/-- Bit 6: custom indexed-array render stage flag. -/
def CUSTOM_IA_RENDER : Nat := 64

/-- Bit 7: children stage flag. -/
def CHILDREN : Nat := 128

/-- Bit 8: post-update-render-data stage flag. -/
def POST_UPDATE_RENDER_DATA : Nat := 256

/-- Bit 9: post-render stage flag. -/
def POST_RENDER : Nat := 512

/-- Bit 10: the sentinel bound `FINAL = 1 << 10`. -/
def FINAL : Nat := 1024

/-- All-ones 32-bit mask; `m &&& (MASK32 ^^^ b)` models the JavaScript
`m & ~b` on the flag values used by the source (all below 2^31). -/
def MASK32 : Nat := 4294967295

/-- JavaScript `m &= ~b` for a flag constant `b`: clear the bits of `b`. -/
def clearFlag (m b : Nat) : Nat := m &&& (MASK32 ^^^ b)

/-- The distinct `_func` values a `RenderFlow` object can carry: one per
`_proto` stage function, plus `_doNothing` (the `DONOTHING` switch case and
the sentinel) and the constructor default `init` (kept when `createFlow`'s
switch matches no case, e.g. for the `FINAL` bit). -/
inductive StageFunc : Type where
  | doNothing
  | localTransform
  | worldTransform
  | color
  | opacity
  | updateRenderData
  | render
  | customIARender
  | children
  | postUpdateRenderData
  | postRender
  | initFunc

deriving DecidableEq

/-- A compiled flow chain: `RenderFlow.empty` is the shared sentinel `EMPTY_FLOW`
(`_func = _doNothing`), and `RenderFlow.node f next` is a `RenderFlow` object with
`_func = f` and `_next = next`. -/
inductive RenderFlow : Type where
  | empty : RenderFlow
  | node : StageFunc → RenderFlow → RenderFlow

deriving DecidableEq

/-- The `_next` field of a flow object. `EMPTY_FLOW._next` is `EMPTY_FLOW`
itself (`EMPTY_FLOW._next = EMPTY_FLOW;` in the source), which the inductive
model renders as `RenderFlow.empty.next = RenderFlow.empty`. -/
def RenderFlow.next : RenderFlow → RenderFlow
  | .empty => .empty
  | .node _ n => n

/-- The `_func` field of a flow object; the sentinel carries `_doNothing`. -/
def RenderFlow.func : RenderFlow → StageFunc
  | .empty => .doNothing
  | .node f _ => f

/-- The `switch (flag)` of `createFlow`: which `_func` a flag value selects.
The constructor has already set `this._func = init`, so a flag matching no
case (such as `FINAL`) keeps `initFunc`. -/
def funcForFlag (flag : Nat) : StageFunc :=
  if flag = DONOTHING then .doNothing
  else if flag = LOCAL_TRANSFORM then .localTransform
  else if flag = WORLD_TRANSFORM then .worldTransform
  else if flag = COLOR then .color
  else if flag = OPACITY then .opacity
  else if flag = UPDATE_RENDER_DATA then .updateRenderData
  else if flag = RENDER then .render
  else if flag = CUSTOM_IA_RENDER then .customIARender
  else if flag = CHILDREN then .children
  else if flag = POST_UPDATE_RENDER_DATA then .postUpdateRenderData
  else if flag = POST_RENDER then .postRender
  else .initFunc

/-- `createFlow (flag, next)`: a new flow object whose `_next` is
`next || EMPTY_FLOW` and whose `_func` is chosen by the switch. -/
def createFlow (flag : Nat) (next : Option RenderFlow) : RenderFlow :=
  RenderFlow.node (funcForFlag flag) (next.getD RenderFlow.empty)

/-- The `while (tFlag > 0)` loop of `getFlow`, indexed by the exponent:
`getFlowAux flag (k+1) flow` performs the iteration with `tFlag = 2 ^ k`
and then continues with the remaining lower bits. -/
def getFlowAux (flag : Nat) : Nat → Option RenderFlow → Option RenderFlow
  | 0, flow => flow
  | k + 1, flow =>
      getFlowAux flag k (if 2 ^ k &&& flag ≠ 0 then some (createFlow (2 ^ k) flow) else flow)

/-- `getFlow (flag)`: starts with `flow = null` and `tFlag = FINAL = 2 ^ 10`,
so the first iteration is the exponent-10 one. A mask with no scanned bit
set yields `none` (the JavaScript `null`). -/
def getFlow (flag : Nat) : Option RenderFlow := getFlowAux flag 11 none

/-- The ten real stage bits in ascending order, paired with the stage
function each selects; this is the spec's stage order
LocalTransform, WorldTransform, UpdateRenderData, Opacity, Color, Render,
CustomDrawRender, Children, PostUpdateRenderData, PostRender. -/
def stageOrder : List (Nat × StageFunc) :=
  [(LOCAL_TRANSFORM, .localTransform), (WORLD_TRANSFORM, .worldTransform),
   (UPDATE_RENDER_DATA, .updateRenderData), (OPACITY, .opacity), (COLOR, .color),
   (RENDER, .render), (CUSTOM_IA_RENDER, .customIARender), (CHILDREN, .children),
   (POST_UPDATE_RENDER_DATA, .postUpdateRenderData), (POST_RENDER, .postRender)]

/-- Spec-side description of a compiled chain: one stage per real stage bit
set in the mask, in ascending bit order. -/
def expectedStages (m : Nat) : List StageFunc :=
  stageOrder.filterMap (fun p => if m &&& p.1 ≠ 0 then some p.2 else none)

/-- Build the chain holding exactly the given stage functions in order,
terminated by the sentinel. -/
def chainOf : List StageFunc → RenderFlow
  | [] => .empty
  | f :: fs => .node f (chainOf fs)

/-- Execution errors of the embedded interpreter: `typeError` models a
JavaScript `TypeError` (dereferencing `null`/`undefined`), `outOfFuel` is
the artificial bound on recursion depth used to make the interpreter total. -/
inductive Err : Type where
  | typeError
  | outOfFuel

deriving DecidableEq

/-- A slot of the `flows` cache object. After `RenderFlow.init`, slot 0
holds `EMPTY_FLOW` (`emptySlot`), slots `1 .. FINAL-1` hold fresh
`RenderFlow` objects whose `_func` is still the constructor default `init`
(`placeholder`), and all other indices are JavaScript `undefined` (`undefSlot`).
A slot the `init` function has filled with a compiled chain is `compiled`. -/
inductive CacheSlot : Type where
  | emptySlot
  | placeholder
  | compiled (f : RenderFlow)
  | undefSlot

deriving DecidableEq

/-- The cache state `RenderFlow.init` leaves behind:
`flows[0] = EMPTY_FLOW; for (let i = 1; i < FINAL; i++) flows[i] = new RenderFlow();`. -/
def initFlows : Nat → CacheSlot := fun m =>
  if m = 0 then .emptySlot else if m < FINAL then .placeholder else .undefSlot

/-- One dispatch `flows[m]._func(node)` seen from the cache's point of view:
it returns the possibly updated cache together with the chain that actually
processes the node (`none` when the no-op `EMPTY_FLOW` ran).  A
`placeholder` slot runs `init`, which compiles `getFlow m`, installs it in
slot `m`, and immediately invokes the compiled chain on the same node; an
`emptySlot` or `compiled` slot runs what it holds and leaves the cache
untouched; an `undefSlot` slot throws. -/
def dispatchCache (flows : Nat → CacheSlot) (m : Nat) :
    Except Err ((Nat → CacheSlot) × Option RenderFlow) :=
  match flows m with
  | .undefSlot => .error .typeError
  | .emptySlot => .ok (flows, none)
  | .compiled f => .ok (flows, some f)
  | .placeholder =>
      match getFlow m with
      | some f => .ok (Function.update flows m (.compiled f), some f)
      | none => .error .typeError

/-- Mask types from CCMask.js (`Mask.Type`). -/
inductive MaskType : Type where
  | RECT
  | ELLIPSE
  | IMAGE_STENCIL

deriving DecidableEq

/-- The assembler kinds the claims exercise: an ordinary content assembler,
and the two mask assemblers of src/unnamed/part_000 (`maskFrontAssembler`,
`maskEndAssembler`). -/
inductive Asm : Type where
  | normal
  | maskFront
  | maskEnd

deriving DecidableEq

/-- A render component (`node._renderComponent`): its `_assembler`, its
optional `_postAssembler`, and — for masks — the `_type` and whether a
`spriteFrame` is present (the data `fillBuffers` branches on). -/
structure Comp : Type where
  asm : Asm
  postAsm : Option Asm
  maskType : MaskType
  spriteFrame : Bool

deriving DecidableEq

/-- The stored color of a node (`node._color`).  In the source `_val` is the
packed rgba word; the model splits it into the rgb channels and the alpha
channel (the only channel the traversal touches), so that saving and
restoring `_val` is saving and restoring this whole value. -/
structure ColorVal : Type where
  rgb : Nat
  alpha : ℚ

deriving DecidableEq

/-- Modelled from the spec: `Color._fastSetA` (CCColor, not under src/)
temporarily overwrites the rendered alpha channel with the given cascaded
value. -/
def fastSetA (c : ColorVal) (a : ℚ) : ColorVal := { c with alpha := a }

/-- The per-node state the traversal reads and writes: `_renderFlag`,
`_opacity`, `_customInvisibleFlag`, `_activeInHierarchy`, `groupIndex`,
`_cullingMask`, `_color` and `_renderComponent`.  `id` only labels the node
in the event trace.  Matrices are not carried as data; their recomputations
appear as trace events. -/
structure NodeData : Type where
  id : Nat
  renderFlag : Nat
  opacity : Nat
  customInvisibleFlag : Bool
  activeInHierarchy : Bool
  groupIndex : Nat
  cullingMask : Nat
  color : ColorVal
  comp : Option Comp

deriving DecidableEq

/-- A scene-graph node: its data and its `_children` list. -/
inductive NTree : Type where
  | mk : NodeData → List NTree → NTree

/-- The node's own data. -/
def NTree.data : NTree → NodeData
  | .mk d _ => d

/-- The node's `_children` list. -/
def NTree.children : NTree → List NTree
  | .mk _ cs => cs

/-- Replace the node's own data, keeping its children. -/
def NTree.withData : NTree → NodeData → NTree
  | .mk _ cs, d => .mk d cs

/-- The walker's traversal counters and accumulator: `worldMatDirty`,
`parentOpacityDirty` and `parentOpacity`. -/
structure Walker : Type where
  worldMatDirty : Nat
  parentOpacityDirty : Nat
  parentOpacity : ℚ

deriving DecidableEq

/-- Observable effects of a traversal, in execution order.
`mulWorld` is the `node._mulMat(node._worldMatrix, …)` recomputation inside
`_worldTransform`; `calcWorld` is `scene._calculWorldMatrix()` inside
`render`; `submit`/`submitIA` are the sink submissions
`_walker._commitComp`/`_walker._commitIA` of an ordinary assembler with the
culling mask they were tagged with; `pushMask`/`popMask` are the stencil
manager calls of the mask assemblers' `fillBuffers`; `dispatch` records a
child entering `flows[c._renderFlag]._func(c)` with its mask and the alpha
channel its color holds at that moment. -/
inductive Event : Type where
  | updateLocalMatrix (id : Nat)
  | mulWorld (id : Nat)
  | calcWorld (id : Nat)
  | updateColor (id : Nat)
  | updateRData (id : Nat)
  | postUpdateRData (id : Nat)
  | submit (id cull : Nat)
  | submitIA (id cull : Nat)
  | pushMask (id : Nat)
  | popMask (id : Nat)
  | dispatch (id flag : Nat) (alpha : ℚ)

deriving DecidableEq

/-- The ambient traversal state: the walker, the module-level `_cullingMask`,
and the accumulated event trace. -/
structure Ctx : Type where
  walker : Walker
  cullingMask : Nat
  events : List Event

deriving DecidableEq

/-- Append an event to the trace. -/
def emit (ctx : Ctx) (e : Event) : Ctx := { ctx with events := ctx.events ++ [e] }

/-- `_walker.worldMatDirty ++`. -/
def incWMD (ctx : Ctx) : Ctx :=
  { ctx with walker := { ctx.walker with worldMatDirty := ctx.walker.worldMatDirty + 1 } }

/-- `_walker.worldMatDirty --`. -/
def decWMD (ctx : Ctx) : Ctx :=
  { ctx with walker := { ctx.walker with worldMatDirty := ctx.walker.worldMatDirty - 1 } }

/-- `_walker.parentOpacityDirty ++`. -/
def incPOD (ctx : Ctx) : Ctx :=
  { ctx with walker := { ctx.walker with parentOpacityDirty := ctx.walker.parentOpacityDirty + 1 } }

/-- `_walker.parentOpacityDirty --`. -/
def decPOD (ctx : Ctx) : Ctx :=
  { ctx with walker := { ctx.walker with parentOpacityDirty := ctx.walker.parentOpacityDirty - 1 } }

/-- `_walker.parentOpacity = q`. -/
def setPO (ctx : Ctx) (q : ℚ) : Ctx :=
  { ctx with walker := { ctx.walker with parentOpacity := q } }

/-- `_cullingMask = m`. -/
def setCull (ctx : Ctx) (m : Nat) : Ctx := { ctx with cullingMask := m }

/-- The invisibility test every stage except `_localTransform` begins with:
`node._opacity === 0 || node._customInvisibleFlag === true`. -/
def invisible (d : NodeData) : Bool := d.opacity == 0 || d.customInvisibleFlag

/-- Modelled from the spec: the sink (`_walker._commitComp`, the
ModelBatcher, not under src/) forwards a submission to the given
assembler's `fillBuffers`.  The mask assemblers' `fillBuffers` bodies ARE
under src/ (src/unnamed/part_000): the front one pushes onto the stencil
manager when the mask is not an image stencil without a sprite frame and
re-arms `FLAG_UPDATE_RENDER_DATA` on the node; the end one pops under the
same condition and re-arms `FLAG_UPDATE_RENDER_DATA | FLAG_POST_UPDATE_RENDER_DATA`.
An ordinary assembler submits draw content tagged with the culling mask.
A missing assembler (`undefined`) faults when dereferenced. -/
def commitComp (c : Comp) (asm : Option Asm) (cull : Nat) (d : NodeData) (ctx : Ctx) :
    Except Err (NodeData × Ctx) :=
  match asm with
  | none => .error .typeError
  | some .normal => .ok (d, emit ctx (.submit d.id cull))
  | some .maskFront =>
      let ctx1 := if c.maskType ≠ .IMAGE_STENCIL ∨ c.spriteFrame then emit ctx (.pushMask d.id) else ctx
      .ok ({ d with renderFlag := d.renderFlag ||| UPDATE_RENDER_DATA }, ctx1)
  | some .maskEnd =>
      let ctx1 := if c.maskType ≠ .IMAGE_STENCIL ∨ c.spriteFrame then emit ctx (.popMask d.id) else ctx
      .ok ({ d with renderFlag := d.renderFlag ||| UPDATE_RENDER_DATA ||| POST_UPDATE_RENDER_DATA }, ctx1)

mutual

/-- Execute a compiled flow chain on a node: each `_proto` stage function of
render-flow.js in turn.  `fuel` bounds the recursion depth (every call
consumes one unit); a real run is any run that returns `.ok`.  Two parts of
a stage body live outside src/ and are modelled from the spec: in the Color
stage, `comp._updateColor()` (RenderComponent) recomputes the rendered
color and clears the node's COLOR bit, exactly as the spec's stage table
says; in the UpdateRenderData/PostUpdateRenderData stages the assembler's
`updateRenderData` is an opaque effect recorded as an event.  Dispatching
`flows[flag]._func` is modelled by `runDispatch` against the post-`init`
cache (the cache dynamics themselves are `dispatchCache` above). -/
def runChain : Nat → RenderFlow → NTree → Ctx → Except Err (NTree × Ctx)
  | 0, _, _, _ => .error .outOfFuel
  | _ + 1, .empty, t, ctx => .ok (t, ctx)
  | fuel + 1, .node f next, t, ctx =>
    match f with
    | .doNothing => .ok (t, ctx)
    | .initFunc => runDispatch fuel t ctx
    | .localTransform =>
        runChain fuel next
          (t.withData { t.data with renderFlag := clearFlag t.data.renderFlag LOCAL_TRANSFORM })
          (emit ctx (.updateLocalMatrix t.data.id))
    | .worldTransform =>
        if invisible t.data then .ok (t, ctx)
        else
          match runChain fuel next
              (t.withData { t.data with renderFlag := clearFlag t.data.renderFlag WORLD_TRANSFORM })
              (emit (incWMD ctx) (.mulWorld t.data.id)) with
          | .ok (t2, ctx2) => .ok (t2, decWMD ctx2)
          | .error e => .error e
    | .color =>
        if invisible t.data then .ok (t, ctx)
        else
          match t.data.comp with
          | some _ =>
              runChain fuel next
                (t.withData { t.data with renderFlag := clearFlag t.data.renderFlag COLOR })
                (emit ctx (.updateColor t.data.id))
          | none =>
              runChain fuel next
                (t.withData { t.data with renderFlag := clearFlag t.data.renderFlag COLOR }) ctx
    | .opacity =>
        if invisible t.data then .ok (t, ctx)
        else
          match runChain fuel next
              (t.withData { t.data with renderFlag := clearFlag t.data.renderFlag OPACITY })
              (incPOD ctx) with
          | .ok (t2, ctx2) => .ok (t2, decPOD ctx2)
          | .error e => .error e
    | .updateRenderData =>
        if invisible t.data then .ok (t, ctx)
        else
          let ctx1 := match t.data.comp with
            | some _ => emit ctx (.updateRData t.data.id)
            | none => ctx
          runChain fuel next
            (t.withData { t.data with renderFlag := clearFlag t.data.renderFlag UPDATE_RENDER_DATA }) ctx1
    | .render =>
        if invisible t.data then .ok (t, ctx)
        else
          match t.data.comp with
          | none => runChain fuel next t ctx
          | some c =>
              match commitComp c (some c.asm) t.data.cullingMask t.data ctx with
              | .ok (d2, ctx2) => runChain fuel next (t.withData d2) ctx2
              | .error e => .error e
    | .customIARender =>
        if invisible t.data then .ok (t, ctx)
        else
          match t.data.comp with
          | none => runChain fuel next t ctx
          | some _ => runChain fuel next t (emit ctx (.submitIA t.data.id t.data.cullingMask))
    | .children =>
        if invisible t.data then .ok (t, ctx)
        else
          let savedCull := ctx.cullingMask
          let parentOpacity := ctx.walker.parentOpacity
          let opacity := parentOpacity * ((t.data.opacity : ℚ) / 255)
          let wdf := (if ctx.walker.worldMatDirty ≠ 0 then WORLD_TRANSFORM else 0) |||
                     (if ctx.walker.parentOpacityDirty ≠ 0 then COLOR else 0)
          match runChildren fuel wdf savedCull opacity t.children (setPO ctx opacity) with
          | .ok (cs2, ctx1) =>
              match runChain fuel next (NTree.mk t.data cs2) (setPO ctx1 parentOpacity) with
              | .ok (t2, ctx3) => .ok (t2, setCull ctx3 savedCull)
              | .error e => .error e
          | .error e => .error e
    | .postUpdateRenderData =>
        if invisible t.data then .ok (t, ctx)
        else
          match t.data.comp with
          | none => .error .typeError
          | some c =>
              let ctx1 := match c.postAsm with
                | some _ => emit ctx (.postUpdateRData t.data.id)
                | none => ctx
              runChain fuel next
                (t.withData { t.data with renderFlag := clearFlag t.data.renderFlag POST_UPDATE_RENDER_DATA }) ctx1
    | .postRender =>
        if invisible t.data then .ok (t, ctx)
        else
          match t.data.comp with
          | none => .error .typeError
          | some c =>
              match commitComp c c.postAsm t.data.cullingMask t.data ctx with
              | .ok (d2, ctx2) => runChain fuel next (t.withData d2) ctx2
              | .error e => .error e

/-- The `for` loop of `_proto._children` over the direct children: OR the
forced dirty bits into the child's mask, skip a child that is inactive in
hierarchy or fully transparent, set the current and the child's culling
mask from the saved one (or the child's own group index), save the child's
stored color, temporarily overwrite its alpha channel with the cascaded
opacity, dispatch the child through the flow cache for its current mask,
then restore the saved color word.  Returns the updated children list and
context. -/
def runChildren : Nat → Nat → Nat → ℚ → List NTree → Ctx → Except Err (List NTree × Ctx)
  | 0, _, _, _, _, _ => .error .outOfFuel
  | fuel + 1, wdf, savedCull, opacity, cs, ctx =>
    match cs with
    | [] => .ok ([], ctx)
    | c :: rest =>
      let d1 := { c.data with renderFlag := c.data.renderFlag ||| wdf }
      if d1.activeInHierarchy = false ∨ d1.opacity = 0 then
        match runChildren fuel wdf savedCull opacity rest ctx with
        | .ok (rest2, ctx2) => .ok (c.withData d1 :: rest2, ctx2)
        | .error e => .error e
      else
        let newCull := if d1.groupIndex = 0 then savedCull else 1 <<< d1.groupIndex
        let colorVal := d1.color
        let d3 := { d1 with cullingMask := newCull,
                            color := fastSetA d1.color ((d1.opacity : ℚ) * opacity) }
        let ctx2 := emit (setCull ctx newCull) (.dispatch d3.id d3.renderFlag d3.color.alpha)
        match runDispatch fuel (c.withData d3) ctx2 with
        | .ok (c2, ctx3) =>
            let c3 := c2.withData { c2.data with color := colorVal }
            match runChildren fuel wdf savedCull opacity rest ctx3 with
            | .ok (rest2, ctx4) => .ok (c3 :: rest2, ctx4)
            | .error e => .error e
        | .error e => .error e

/-- `flows[t._renderFlag]._func(t)` against the post-`RenderFlow.init`
cache: mask 0 runs the preset no-op sentinel; a mask below the sentinel
bound runs the chain `getFlow` compiles for it (lazily on first use,
identically on every later use — see `dispatchCache`); a mask at or beyond
the bound hits an uninitialized slot and faults. -/
def runDispatch : Nat → NTree → Ctx → Except Err (NTree × Ctx)
  | 0, _, _ => .error .outOfFuel
  | fuel + 1, t, ctx =>
    if t.data.renderFlag = 0 then .ok (t, ctx)
    else if t.data.renderFlag < FINAL then
      match getFlow t.data.renderFlag with
      | some f => runChain fuel f t ctx
      | none => .error .typeError
    else .error .typeError

end

/-- The scene entry point `render (scene)`: seed `_cullingMask` from the
root's group index; if the root's mask has WorldTransform set, wrap the
dispatch in an increment/decrement of `worldMatDirty` around
`scene._calculWorldMatrix()` (modelled from the spec as the root's
world-transform recomputation, recorded as a `calcWorld` event) and clear
the bit before dispatching. -/
def render (fuel : Nat) (scene : NTree) (walker : Walker) : Except Err (NTree × Ctx) :=
  let ctx : Ctx := { walker := walker, cullingMask := 1 <<< scene.data.groupIndex, events := [] }
  if scene.data.renderFlag &&& WORLD_TRANSFORM ≠ 0 then
    match runDispatch fuel
        (scene.withData { scene.data with renderFlag := clearFlag scene.data.renderFlag WORLD_TRANSFORM })
        (emit (incWMD ctx) (.calcWorld scene.data.id)) with
    | .ok (t2, ctx2) => .ok (t2, decWMD ctx2)
    | .error e => .error e
  else
    runDispatch fuel scene ctx

deriving instance DecidableEq for Except

/-- Does the event submit ordinary draw content to the sink? -/
def isSubmit : Event → Bool
  | .submit _ _ => true
  | _ => false

/-- Is the event a world-transform recomputation at the node labelled `id`
(either `node._mulMat` inside `_worldTransform`, or
`scene._calculWorldMatrix()` inside `render`)? -/
def isWorldRecompute (id : Nat) : Event → Bool
  | .mulWorld i => i == id
  | .calcWorld i => i == id
  | _ => false

/-- Is the event observable by the external stencil stack manager / draw
sink: a mask push, a mask pop, or an ordinary submission? -/
def isStencilObs : Event → Bool
  | .pushMask _ => true
  | .popMask _ => true
  | .submit _ _ => true
  | _ => false

/-- A visible, active node for the concrete scenarios: full opacity, custom
invisibility off, default group index, stored color rgb 7 / alpha 255. -/
def visNode (id flag : Nat) (comp : Option Comp) (cs : List NTree) : NTree :=
  .mk { id := id, renderFlag := flag, opacity := 255, customInvisibleFlag := false,
        activeInHierarchy := true, groupIndex := 0, cullingMask := 0,
        color := { rgb := 7, alpha := 255 }, comp := comp } cs

/-- An ordinary content component. -/
def compNormal : Comp :=
  { asm := .normal, postAsm := none, maskType := .RECT, spriteFrame := false }

/-- A rectangle-mask component: `maskFrontAssembler` as `_assembler`,
`maskEndAssembler` as `_postAssembler` (CCMask wires exactly these). -/
def compMask : Comp :=
  { asm := .maskFront, postAsm := some .maskEnd, maskType := .RECT, spriteFrame := false }

/-- A fresh walker: both dirty counters 0, accumulated parent opacity 1. -/
def initWalker : Walker := { worldMatDirty := 0, parentOpacityDirty := 0, parentOpacity := 1 }

/-- C2's three-level tree exactly as the claim states it: root mask
WorldTransform|Children, child mask 0, grandchild mask Render with an
ordinary render component; every node active and visible, no group-index
overrides. -/
def c2scene : NTree :=
  visNode 0 (WORLD_TRANSFORM ||| CHILDREN) none
    [visNode 1 0 none [visNode 2 RENDER (some compNormal) []]]

/-- The amended three-level tree: identical to the claim's scenario except
that the middle node's mask is Children (the minimal change the
counterexample forces — ancestor dirtiness only propagates through nodes
whose own chain contains the Children stage). -/
def c2sceneAmended : NTree :=
  visNode 0 (WORLD_TRANSFORM ||| CHILDREN) none
    [visNode 1 CHILDREN none [visNode 2 RENDER (some compNormal) []]]

/-- C8's tree: outer mask node A (id 0), inner mask node B (id 1), ordinary
content C (id 2); the mask nodes carry Render|Children|PostRender, the
content node carries Render. -/
def c8scene : NTree :=
  visNode 0 (RENDER ||| CHILDREN ||| POST_RENDER) (some compMask)
    [visNode 1 (RENDER ||| CHILDREN ||| POST_RENDER) (some compMask)
      [visNode 2 RENDER (some compNormal) []]]

/-- A context for stage-local witnesses. -/
def ctx0 : Ctx := { walker := initWalker, cullingMask := 1, events := [] }

/-- The node used by C4's witness: COLOR|RENDER mask, ordinary component. -/
def c4node : NTree := visNode 3 (COLOR ||| RENDER) (some compNormal) []

/-- The node used by C10's witness: post bits armed but no component. -/
def c10node : NTree := visNode 4 (POST_UPDATE_RENDER_DATA ||| POST_RENDER) none []

/-- The walker fields a balanced traversal must leave unchanged. -/
def walkerRestored (a b : Ctx) : Prop :=
  b.walker.worldMatDirty = a.walker.worldMatDirty ∧
  b.walker.parentOpacityDirty = a.walker.parentOpacityDirty ∧
  b.walker.parentOpacity = a.walker.parentOpacity

/-- The context produced by the concrete run in C6's witness. -/
def c6out : Ctx := { walker := initWalker, cullingMask := 1, events := [Event.mulWorld 3] }

/-- The inactive child of C9's witness: mask OPACITY, inactive in
hierarchy. -/
def c9child : NTree :=
  .mk { id := 6, renderFlag := OPACITY, opacity := 255, customInvisibleFlag := false,
        activeInHierarchy := false, groupIndex := 0, cullingMask := 0,
        color := { rgb := 7, alpha := 255 }, comp := none } []

/-- The entry context of C9's witness: an ancestor's WorldTransform stage is
live (`worldMatDirty = 1`). -/
def c9ctx : Ctx :=
  { walker := { worldMatDirty := 1, parentOpacityDirty := 0, parentOpacity := 1 },
    cullingMask := 1, events := [] }

/-- The visible child of C7's witness: empty mask, full opacity. -/
def c7child : NTree :=
  .mk { id := 9, renderFlag := 0, opacity := 255, customInvisibleFlag := false,
        activeInHierarchy := true, groupIndex := 0, cullingMask := 0,
        color := { rgb := 7, alpha := 255 }, comp := none } []

/-- The exit context of C7's witness: the child's dispatch event carries the
cascaded alpha. -/
def c7ctxOut : Ctx :=
  { walker := initWalker, cullingMask := 1,
    events := [Event.dispatch c7child.data.id (c7child.data.renderFlag ||| 0)
      ((c7child.data.opacity : ℚ) * (1 * ((255 : ℚ) / 255)))] }

@[simp] theorem NTree.data_withData (t : NTree) (d : NodeData) : (t.withData d).data = d := by
  cases t
  rfl

@[simp] theorem NTree.children_withData (t : NTree) (d : NodeData) :
    (t.withData d).children = t.children := by
  cases t
  rfl

set_option maxRecDepth 100000 in
/-- Exhaustive check of the chain shape for every mask below the sentinel
bound: for nonzero masks `getFlow` returns exactly the ascending-bit-order
chain of the set stage bits, terminated by the sentinel. -/
theorem getFlow_eq_expected : ∀ m : Fin 1024,
    m.val = 0 ∨ getFlow m.val = some (chainOf (expectedStages m.val)) := by
  decide

/-- C1: for every bitmask `m` with `0 < m < FLAG_FINAL`, the chain returned
by `getFlow m` has exactly one stage per real stage bit set in `m`, in
ascending bit order (LocalTransform, WorldTransform, UpdateRenderData,
Opacity, Color, Render, CustomDrawRender, Children, PostUpdateRenderData,
PostRender), and is terminated by the shared sentinel `EMPTY_FLOW`, whose
`_next` field is itself. -/
theorem c1_getFlow_ascending (m : Nat) (h1 : 0 < m) (h2 : m < 1024) :
    getFlow m = some (chainOf (expectedStages m)) ∧ RenderFlow.next RenderFlow.empty = RenderFlow.empty := by
  refine ⟨?_, rfl⟩
  rcases getFlow_eq_expected ⟨m, h2⟩ with h | h
  · exact absurd (show m = 0 from h) (by omega)
  · exact h

/-- Witness for C1 at the mask LocalTransform|Render|Children = 161. -/
theorem c1_getFlow_ascending_witness :
    0 < 161 ∧ 161 < 1024 ∧
      (getFlow 161 = some (chainOf (expectedStages 161)) ∧ RenderFlow.next RenderFlow.empty = RenderFlow.empty) :=
  ⟨by decide, by decide, c1_getFlow_ascending 161 (by decide) (by decide)⟩

/-- For a power of two, the bit test the loop performs is `Nat.testBit`. -/
theorem two_pow_and_ne_zero (m k : Nat) : (2 ^ k &&& m ≠ 0) ↔ m.testBit k := by
  rw [Nat.two_pow_and]
  cases h : m.testBit k <;> simp [h]

/-- The `getFlow` loop only inspects bits 0 to 10 of the mask, so reducing
the mask modulo `2 ^ 11` before the loop changes nothing. -/
theorem getFlowAux_mod (m : Nat) :
    ∀ k, k ≤ 11 → ∀ acc, getFlowAux m k acc = getFlowAux (m % 2 ^ 11) k acc := by
  intro k
  induction k with
  | zero => intro _ acc; rfl
  | succ k ih =>
      intro hk acc
      have hbit : (2 ^ k &&& m ≠ 0) ↔ (2 ^ k &&& m % 2 ^ 11 ≠ 0) := by
        rw [two_pow_and_ne_zero, two_pow_and_ne_zero, Nat.testBit_mod_two_pow]
        simp [Nat.lt_of_succ_le hk]
      simp only [getFlowAux]
      by_cases h : 2 ^ k &&& m ≠ 0
      · rw [if_pos h, if_pos (hbit.mp h), ih (by omega)]
      · rw [if_neg h, if_neg (fun hc => h (hbit.mpr hc)), ih (by omega)]

/-- C5 counterexample: the claim says bits at or beyond the sentinel bound
are ignored, i.e. `getFlow m` behaves identically to `getFlow` of `m`
restricted to bits 0..9. At `m = FINAL = 1024` this fails: the loop starts
its scan at `tFlag = FINAL`, so the sentinel bit itself is inspected and
contributes a chain node (with the constructor-default `init` function,
since `createFlow`'s switch has no `FINAL` case), whereas
`getFlow (1024 % 1024) = getFlow 0` is `null`. -/
theorem c5_counterexample_sentinel_bit : getFlow FINAL ≠ getFlow (FINAL % 2 ^ 10) := by
  decide

/-- C5 amended: only bits strictly above the sentinel bit are silently
ignored — `getFlow m` behaves identically to `getFlow` of `m` restricted to
bits 0..10.  The sentinel bit itself is scanned: when set it contributes a
chain node carrying the constructor-default lazy-init function. -/
theorem c5_high_bits_ignored :
    (∀ m : Nat, getFlow m = getFlow (m % 2 ^ 11)) ∧
      getFlow FINAL = some (RenderFlow.node .initFunc .empty) := by
  constructor
  · intro m
    exact getFlowAux_mod m 11 (by omega) none
  · decide

/-- Witness for C5's amended statement at a mask with a bit above the
sentinel bound: bit 12 is ignored. -/
theorem c5_high_bits_ignored_witness : getFlow 4129 = getFlow (4129 % 2 ^ 11) :=
  c5_high_bits_ignored.1 4129

/-- C3: after `RenderFlow.init`, slot 0 holds the preset no-op chain; for
every mask `1 ≤ m < FLAG_FINAL`, the first dispatch through `flows[m]`
compiles the real chain, installs it into `flows[m]`, and immediately
invokes that same chain, and every subsequent dispatch for `m` returns the
identical chain object from the unchanged cache without recompiling — so
two nodes with the same mask dispatch through the identical compiled chain. -/
theorem c3_cache_lazy_compile (m : Nat) (h1 : 1 ≤ m) (h2 : m < 1024) :
    initFlows 0 = .emptySlot ∧
    ∃ f, getFlow m = some f ∧
      dispatchCache initFlows m = .ok (Function.update initFlows m (.compiled f), some f) ∧
      dispatchCache (Function.update initFlows m (.compiled f)) m =
        .ok (Function.update initFlows m (.compiled f), some f) := by
  have hfl : getFlow m = some (chainOf (expectedStages m)) := by
    rcases getFlow_eq_expected ⟨m, h2⟩ with h | h
    · exact absurd (show m = 0 from h) (by omega)
    · exact h
  refine ⟨rfl, chainOf (expectedStages m), hfl, ?_, ?_⟩
  · have hslot : initFlows m = .placeholder := by
      unfold initFlows FINAL
      rw [if_neg (by omega), if_pos (by omega)]
    unfold dispatchCache
    rw [hslot, hfl]
  · unfold dispatchCache
    rw [Function.update_same]

/-- Witness for C3 at the mask 5 (LocalTransform|UpdateRenderData). -/
theorem c3_cache_lazy_compile_witness :
    1 ≤ 5 ∧ 5 < 1024 ∧
      (initFlows 0 = .emptySlot ∧
       ∃ f, getFlow 5 = some f ∧
         dispatchCache initFlows 5 = .ok (Function.update initFlows 5 (.compiled f), some f) ∧
         dispatchCache (Function.update initFlows 5 (.compiled f)) 5 =
           .ok (Function.update initFlows 5 (.compiled f), some f)) :=
  ⟨by decide, by decide, c3_cache_lazy_compile 5 (by decide) (by decide)⟩

/-- C2 counterexample: on the claim's own scenario the code performs ZERO
sink submissions and ZERO world-transform recomputations at the grandchild,
not one of each.  The child's mask is 0, so the forced mask is only
WORLD_TRANSFORM, whose compiled chain contains no Children stage — the
traversal never descends to the grandchild. -/
theorem c2_scenario_counterexample :
    (render 100 c2scene initWalker).map
        (fun p => (p.2.events.countP isSubmit, p.2.events.countP (isWorldRecompute 2))) =
      .ok (0, 0) ∧
    (render 100 c2scene initWalker).map
        (fun p => (p.2.events.countP isSubmit, p.2.events.countP (isWorldRecompute 2))) ≠
      .ok (1, 1) := by
  exact ⟨by decide, by decide⟩

/-- C2 amended: with the child's mask set to Children, one `render (root)`
call performs exactly one world-transform recomputation at the root, one
forced recomputation at the child and one at the grandchild (via the
`worldMatDirty` counter), and exactly one sink submission — the
grandchild's Render stage — tagged with culling mask
`1 <<< root.groupIndex`. -/
theorem c2_scenario_amended :
    (render 100 c2sceneAmended initWalker).map
        (fun p => (p.2.events.countP (isWorldRecompute 0), p.2.events.countP (isWorldRecompute 1),
                   p.2.events.countP (isWorldRecompute 2), p.2.events.filter isSubmit)) =
      .ok (1, 1, 1, [Event.submit 2 (1 <<< 0)]) := by
  decide

/-- C8: for nested mask nodes A ⊃ B ⊃ content C, one traversal produces
exactly the stencil-manager sequence
pushMask A, pushMask B, submit C, popMask B, popMask A:
the front assembler's `fillBuffers` pushes during the node's Render stage,
the end assembler's pops during that node's PostRender stage, and the fixed
stage order places PostRender after the whole Children stage. -/
theorem c8_nested_mask_sequence :
    (render 100 c8scene initWalker).map (fun p => p.2.events.filter isStencilObs) =
      .ok [Event.pushMask 0, Event.pushMask 1, Event.submit 2 1,
           Event.popMask 1, Event.popMask 0] := by
  decide

/-- Clearing a flag really clears it: after `m &= ~b` the bits of `b` are
zero (for the stage-flag constants, which all lie inside the 32-bit mask). -/
theorem clearFlag_and_self (m b : Nat) (h : (MASK32 ^^^ b) &&& b = 0) :
    clearFlag m b &&& b = 0 := by
  rw [clearFlag, Nat.and_assoc, h, Nat.and_zero]

/-- C4: for every visible node (opacity nonzero, custom-invisible flag
unset), the Color stage clears the COLOR bit from the node's `_renderFlag`
and then invokes the next stage of the chain on the node (emitting the
component's `_updateColor` recomputation when a render component is
present; the bit-clear of that branch is RenderComponent code outside src/,
modelled from the spec's stage table entry "clear own bit, continue"). -/
theorem c4_color_clears_bit (fuel : Nat) (next : RenderFlow) (t : NTree) (ctx : Ctx)
    (hvis : invisible t.data = false) :
    runChain (fuel + 1) (.node .color next) t ctx =
      runChain fuel next
        (t.withData { t.data with renderFlag := clearFlag t.data.renderFlag COLOR })
        (match t.data.comp with
         | some _ => emit ctx (.updateColor t.data.id)
         | none => ctx) ∧
    clearFlag t.data.renderFlag COLOR &&& COLOR = 0 := by
  constructor
  · simp only [runChain, hvis, Bool.false_eq_true, if_false]
    cases t.data.comp <;> rfl
  · exact clearFlag_and_self _ _ (by decide)

/-- Witness for C4 at a concrete visible node carrying a render component. -/
theorem c4_color_clears_bit_witness :
    invisible c4node.data = false ∧
    (runChain 6 (.node .color .empty) c4node ctx0 =
       runChain 5 .empty
         (c4node.withData { c4node.data with renderFlag := clearFlag c4node.data.renderFlag COLOR })
         (match c4node.data.comp with
          | some _ => emit ctx0 (.updateColor c4node.data.id)
          | none => ctx0) ∧
     clearFlag c4node.data.renderFlag COLOR &&& COLOR = 0) :=
  ⟨by decide, c4_color_clears_bit 5 .empty c4node ctx0 (by decide)⟩

/-- C10: for a visible node with no render component, the
PostUpdateRenderData and PostRender stages dereference the missing
component (`comp._postAssembler` on `null`) and fault, while the Render,
CustomDrawRender and Color stages guard against the missing component and
continue (Render and CustomDrawRender leave the node untouched, Color
clears its bit) — so the post stages carry the unstated precondition that
the node has a render component. -/
theorem c10_post_stages_require_component (fuel : Nat) (next : RenderFlow) (t : NTree)
    (ctx : Ctx) (hvis : invisible t.data = false) (hcomp : t.data.comp = none) :
    runChain (fuel + 1) (.node .postUpdateRenderData next) t ctx = .error .typeError ∧
    runChain (fuel + 1) (.node .postRender next) t ctx = .error .typeError ∧
    runChain (fuel + 2) (.node .render .empty) t ctx = .ok (t, ctx) ∧
    runChain (fuel + 2) (.node .customIARender .empty) t ctx = .ok (t, ctx) ∧
    runChain (fuel + 2) (.node .color .empty) t ctx =
      .ok (t.withData { t.data with renderFlag := clearFlag t.data.renderFlag COLOR }, ctx) := by
  refine ⟨?_, ?_, ?_, ?_, ?_⟩ <;>
    simp only [runChain, hvis, Bool.false_eq_true, if_false, hcomp]

/-- Witness for C10 at a concrete visible, component-less node. -/
theorem c10_post_stages_require_component_witness :
    invisible c10node.data = false ∧ c10node.data.comp = none ∧
    (runChain 8 (.node .postUpdateRenderData .empty) c10node ctx0 = .error .typeError ∧
     runChain 8 (.node .postRender .empty) c10node ctx0 = .error .typeError ∧
     runChain 9 (.node .render .empty) c10node ctx0 = .ok (c10node, ctx0) ∧
     runChain 9 (.node .customIARender .empty) c10node ctx0 = .ok (c10node, ctx0) ∧
     runChain 9 (.node .color .empty) c10node ctx0 =
       .ok (c10node.withData { c10node.data with renderFlag := clearFlag c10node.data.renderFlag COLOR }, ctx0)) :=
  ⟨by decide, by decide,
    c10_post_stages_require_component 7 .empty c10node ctx0 (by decide) (by decide)⟩

/-- A sink submission never touches the walker or the culling mask; it only
appends events (and rewrites the node's flags). -/
theorem commitComp_walker (c : Comp) (asm : Option Asm) (cull : Nat) (d : NodeData)
    (ctx : Ctx) (d2 : NodeData) (ctx2 : Ctx)
    (h : commitComp c asm cull d ctx = .ok (d2, ctx2)) :
    ctx2.walker = ctx.walker ∧ ctx2.cullingMask = ctx.cullingMask ∧
      ∃ tail, ctx2.events = ctx.events ++ tail := by
  rcases asm with _ | a
  · exact absurd h (by simp [commitComp])
  · rcases a <;>
      simp only [commitComp, Except.ok.injEq, Prod.mk.injEq] at h
    · obtain ⟨rfl, rfl⟩ := h
      exact ⟨rfl, rfl, [Event.submit d.id cull], rfl⟩
    · obtain ⟨-, rfl⟩ := h
      split
      · exact ⟨rfl, rfl, [Event.pushMask d.id], rfl⟩
      · exact ⟨rfl, rfl, [], by simp⟩
    · obtain ⟨-, rfl⟩ := h
      split
      · exact ⟨rfl, rfl, [Event.popMask d.id], rfl⟩
      · exact ⟨rfl, rfl, [], by simp⟩

/-- Every successful run of a chain restores the walker counters, the
opacity accumulator and the culling mask; the children loop restores the
walker fields (its culling-mask writes are undone by the stage epilogue,
not by the loop itself).  Proved simultaneously for the three mutually
recursive interpreter functions by induction on the fuel. -/
theorem restore_aux : ∀ fuel : Nat,
    (∀ fl t ctx t2 ctx2, runChain fuel fl t ctx = .ok (t2, ctx2) →
        walkerRestored ctx ctx2 ∧ ctx2.cullingMask = ctx.cullingMask) ∧
    (∀ wdf sc op cs ctx cs2 ctx2, runChildren fuel wdf sc op cs ctx = .ok (cs2, ctx2) →
        walkerRestored ctx ctx2) ∧
    (∀ t ctx t2 ctx2, runDispatch fuel t ctx = .ok (t2, ctx2) →
        walkerRestored ctx ctx2 ∧ ctx2.cullingMask = ctx.cullingMask) := by
  intro fuel
  induction fuel with
  | zero =>
      refine ⟨?_, ?_, ?_⟩
      · intro fl t ctx t2 ctx2 h
        exact absurd h (by simp [runChain])
      · intro wdf sc op cs ctx cs2 ctx2 h
        exact absurd h (by simp [runChildren])
      · intro t ctx t2 ctx2 h
        exact absurd h (by simp [runDispatch])
  | succ fuel ih =>
      obtain ⟨ihChain, ihChildren, ihDispatch⟩ := ih
      refine ⟨?_, ?_, ?_⟩
      · intro fl t ctx t2 ctx2 h
        cases fl with
        | empty =>
            simp only [runChain, Except.ok.injEq, Prod.mk.injEq] at h
            obtain ⟨rfl, rfl⟩ := h
            exact ⟨⟨rfl, rfl, rfl⟩, rfl⟩
        | node f next =>
          cases f with
          | doNothing =>
              simp only [runChain, Except.ok.injEq, Prod.mk.injEq] at h
              obtain ⟨rfl, rfl⟩ := h
              exact ⟨⟨rfl, rfl, rfl⟩, rfl⟩
          | initFunc =>
              simp only [runChain] at h
              exact ihDispatch _ _ _ _ h
          | localTransform =>
              simp only [runChain] at h
              simpa [walkerRestored, emit] using ihChain _ _ _ _ _ h
          | worldTransform =>
              simp only [runChain] at h
              split at h
              · simp only [Except.ok.injEq, Prod.mk.injEq] at h
                obtain ⟨rfl, rfl⟩ := h
                exact ⟨⟨rfl, rfl, rfl⟩, rfl⟩
              · split at h
                · rename_i a b heq
                  simp only [Except.ok.injEq, Prod.mk.injEq] at h
                  obtain ⟨rfl, rfl⟩ := h
                  have := ihChain _ _ _ _ _ heq
                  simp only [walkerRestored, emit, incWMD, decWMD] at this ⊢
                  obtain ⟨⟨h1, h2, h3⟩, h4⟩ := this
                  refine ⟨⟨by omega, h2, h3⟩, h4⟩
                · exact absurd h (by simp)
          | opacity =>
              simp only [runChain] at h
              split at h
              · simp only [Except.ok.injEq, Prod.mk.injEq] at h
                obtain ⟨rfl, rfl⟩ := h
                exact ⟨⟨rfl, rfl, rfl⟩, rfl⟩
              · split at h
                · rename_i a b heq
                  simp only [Except.ok.injEq, Prod.mk.injEq] at h
                  obtain ⟨rfl, rfl⟩ := h
                  have := ihChain _ _ _ _ _ heq
                  simp only [walkerRestored, incPOD, decPOD] at this ⊢
                  obtain ⟨⟨h1, h2, h3⟩, h4⟩ := this
                  refine ⟨⟨h1, by omega, h3⟩, h4⟩
                · exact absurd h (by simp)
          | color =>
              simp only [runChain] at h
              split at h
              · simp only [Except.ok.injEq, Prod.mk.injEq] at h
                obtain ⟨rfl, rfl⟩ := h
                exact ⟨⟨rfl, rfl, rfl⟩, rfl⟩
              · split at h <;> simpa [walkerRestored, emit] using ihChain _ _ _ _ _ h
          | updateRenderData =>
              simp only [runChain] at h
              split at h
              · simp only [Except.ok.injEq, Prod.mk.injEq] at h
                obtain ⟨rfl, rfl⟩ := h
                exact ⟨⟨rfl, rfl, rfl⟩, rfl⟩
              · split at h <;> simpa [walkerRestored, emit] using ihChain _ _ _ _ _ h
          | render =>
              simp only [runChain] at h
              split at h
              · simp only [Except.ok.injEq, Prod.mk.injEq] at h
                obtain ⟨rfl, rfl⟩ := h
                exact ⟨⟨rfl, rfl, rfl⟩, rfl⟩
              · split at h
                · exact ihChain _ _ _ _ _ h
                · split at h
                  · rename_i d2 ctx9 heq
                    obtain ⟨hw, hcul, -⟩ := commitComp_walker _ _ _ _ _ _ _ heq
                    obtain ⟨⟨x1, x2, x3⟩, x4⟩ := ihChain _ _ _ _ _ h
                    rw [hw] at x1 x2 x3
                    exact ⟨⟨x1, x2, x3⟩, x4.trans hcul⟩
                  · exact absurd h (by simp)
          | customIARender =>
              simp only [runChain] at h
              split at h
              · simp only [Except.ok.injEq, Prod.mk.injEq] at h
                obtain ⟨rfl, rfl⟩ := h
                exact ⟨⟨rfl, rfl, rfl⟩, rfl⟩
              · split at h
                · exact ihChain _ _ _ _ _ h
                · simpa [walkerRestored, emit] using ihChain _ _ _ _ _ h
          | children =>
              simp only [runChain] at h
              split at h
              · simp only [Except.ok.injEq, Prod.mk.injEq] at h
                obtain ⟨rfl, rfl⟩ := h
                exact ⟨⟨rfl, rfl, rfl⟩, rfl⟩
              · split at h
                · rename_i cs1 ctx1 heq1
                  split at h
                  · rename_i t3 ctx3 heq2
                    simp only [Except.ok.injEq, Prod.mk.injEq] at h
                    obtain ⟨rfl, rfl⟩ := h
                    have hA := ihChildren _ _ _ _ _ _ _ heq1
                    have hB := ihChain _ _ _ _ _ heq2
                    simp only [walkerRestored, setPO, setCull] at hA hB ⊢
                    obtain ⟨a1, a2, a3⟩ := hA
                    obtain ⟨⟨b1, b2, b3⟩, b4⟩ := hB
                    refine ⟨⟨by omega, by omega, ?_⟩, trivial⟩
                    simp_all
                  · exact absurd h (by simp)
                · exact absurd h (by simp)
          | postUpdateRenderData =>
              simp only [runChain] at h
              split at h
              · simp only [Except.ok.injEq, Prod.mk.injEq] at h
                obtain ⟨rfl, rfl⟩ := h
                exact ⟨⟨rfl, rfl, rfl⟩, rfl⟩
              · split at h
                · exact absurd h (by simp)
                · split at h <;> simpa [walkerRestored, emit] using ihChain _ _ _ _ _ h
          | postRender =>
              simp only [runChain] at h
              split at h
              · simp only [Except.ok.injEq, Prod.mk.injEq] at h
                obtain ⟨rfl, rfl⟩ := h
                exact ⟨⟨rfl, rfl, rfl⟩, rfl⟩
              · split at h
                · exact absurd h (by simp)
                · split at h
                  · rename_i d2 ctx9 heq
                    obtain ⟨hw, hcul, -⟩ := commitComp_walker _ _ _ _ _ _ _ heq
                    obtain ⟨⟨x1, x2, x3⟩, x4⟩ := ihChain _ _ _ _ _ h
                    rw [hw] at x1 x2 x3
                    exact ⟨⟨x1, x2, x3⟩, x4.trans hcul⟩
                  · exact absurd h (by simp)
      · intro wdf sc op cs ctx cs2 ctx2 h
        cases cs with
        | nil =>
            simp only [runChildren, Except.ok.injEq, Prod.mk.injEq] at h
            obtain ⟨rfl, rfl⟩ := h
            exact ⟨rfl, rfl, rfl⟩
        | cons c rest =>
            simp only [runChildren] at h
            split at h
            · split at h
              · rename_i rest2 ctx3 heq
                simp only [Except.ok.injEq, Prod.mk.injEq] at h
                obtain ⟨rfl, rfl⟩ := h
                exact ihChildren _ _ _ _ _ _ _ heq
              · exact absurd h (by simp)
            · split at h
              · rename_i c2 ctx3 heq1
                split at h
                · rename_i rest2 ctx4 heq2
                  simp only [Except.ok.injEq, Prod.mk.injEq] at h
                  obtain ⟨rfl, rfl⟩ := h
                  have hA := ihDispatch _ _ _ _ heq1
                  have hB := ihChildren _ _ _ _ _ _ _ heq2
                  simp only [walkerRestored, emit, setCull] at hA hB ⊢
                  obtain ⟨⟨a1, a2, a3⟩, a4⟩ := hA
                  obtain ⟨b1, b2, b3⟩ := hB
                  exact ⟨by omega, by omega, by rw [b3, a3]⟩
                · exact absurd h (by simp)
              · exact absurd h (by simp)
      · intro t ctx t2 ctx2 h
        simp only [runDispatch] at h
        split at h
        · simp only [Except.ok.injEq, Prod.mk.injEq] at h
          obtain ⟨rfl, rfl⟩ := h
          exact ⟨⟨rfl, rfl, rfl⟩, rfl⟩
        · split at h
          · split at h
            · exact ihChain _ _ _ _ _ h
            · exact absurd h (by simp)
          · exact absurd h (by simp)

/-- C6: for every node and every compiled chain, when the chain's
invocation on that node returns, the traversal state
`_walker.worldMatDirty`, `_walker.parentOpacityDirty`,
`_walker.parentOpacity` and the current culling mask `_cullingMask` each
equal the value they held at entry: every increment or save inside the
WorldTransform, Opacity and Children stages is paired with a decrement or
restore at the matching unwind point. -/
theorem c6_traversal_state_restored (fuel : Nat) (fl : RenderFlow) (t : NTree)
    (ctx : Ctx) (t2 : NTree) (ctx2 : Ctx)
    (h : runChain fuel fl t ctx = .ok (t2, ctx2)) :
    ctx2.walker.worldMatDirty = ctx.walker.worldMatDirty ∧
    ctx2.walker.parentOpacityDirty = ctx.walker.parentOpacityDirty ∧
    ctx2.walker.parentOpacity = ctx.walker.parentOpacity ∧
    ctx2.cullingMask = ctx.cullingMask := by
  obtain ⟨⟨h1, h2, h3⟩, h4⟩ := (restore_aux fuel).1 fl t ctx t2 ctx2 h
  exact ⟨h1, h2, h3, h4⟩

/-- Witness for C6: a concrete WorldTransform-stage run on `c4node`. -/
theorem c6_traversal_state_restored_witness :
    c6out.walker.worldMatDirty = ctx0.walker.worldMatDirty ∧
    c6out.walker.parentOpacityDirty = ctx0.walker.parentOpacityDirty ∧
    c6out.walker.parentOpacity = ctx0.walker.parentOpacity ∧
    c6out.cullingMask = ctx0.cullingMask :=
  c6_traversal_state_restored 3 (.node .worldTransform .empty) c4node ctx0
    (c4node.withData { c4node.data with renderFlag := clearFlag c4node.data.renderFlag WORLD_TRANSFORM })
    c6out rfl

/-- The trace only ever grows: every successful interpreter run leaves its
entry trace as a prefix of its exit trace. -/
theorem events_monotone : ∀ fuel : Nat,
    (∀ fl t ctx r, runChain fuel fl t ctx = .ok r → ctx.events <+: (Prod.snd r).events) ∧
    (∀ wdf sc op cs ctx r, runChildren fuel wdf sc op cs ctx = .ok r →
        ctx.events <+: (Prod.snd r).events) ∧
    (∀ t ctx r, runDispatch fuel t ctx = .ok r → ctx.events <+: (Prod.snd r).events) := by
  intro fuel
  induction fuel with
  | zero =>
      refine ⟨?_, ?_, ?_⟩
      · intro fl t ctx r h
        exact absurd h (by simp [runChain])
      · intro wdf sc op cs ctx r h
        exact absurd h (by simp [runChildren])
      · intro t ctx r h
        exact absurd h (by simp [runDispatch])
  | succ fuel ih =>
      obtain ⟨ihChain, ihChildren, ihDispatch⟩ := ih
      refine ⟨?_, ?_, ?_⟩
      · intro fl t ctx r h
        cases fl with
        | empty =>
            simp only [runChain, Except.ok.injEq] at h
            subst h
            exact List.prefix_rfl
        | node f next =>
          cases f with
          | doNothing =>
              simp only [runChain, Except.ok.injEq] at h
              subst h
              exact List.prefix_rfl
          | initFunc =>
              simp only [runChain] at h
              exact ihDispatch _ _ _ h
          | localTransform =>
              simp only [runChain] at h
              exact List.IsPrefix.trans (List.prefix_append _ _)
                (by simpa [emit] using ihChain _ _ _ _ h)
          | worldTransform =>
              simp only [runChain] at h
              split at h
              · simp only [Except.ok.injEq] at h
                subst h
                exact List.prefix_rfl
              · split at h
                · rename_i a b heq
                  simp only [Except.ok.injEq] at h
                  subst h
                  exact List.IsPrefix.trans (List.prefix_append _ _)
                    (by simpa [emit, incWMD] using ihChain _ _ _ _ heq)
                · exact absurd h (by simp)
          | opacity =>
              simp only [runChain] at h
              split at h
              · simp only [Except.ok.injEq] at h
                subst h
                exact List.prefix_rfl
              · split at h
                · rename_i a b heq
                  simp only [Except.ok.injEq] at h
                  subst h
                  simpa [incPOD, decPOD] using ihChain _ _ _ _ heq
                · exact absurd h (by simp)
          | color =>
              simp only [runChain] at h
              split at h
              · simp only [Except.ok.injEq] at h
                subst h
                exact List.prefix_rfl
              · split at h
                · exact List.IsPrefix.trans (List.prefix_append _ _)
                    (by simpa [emit] using ihChain _ _ _ _ h)
                · exact ihChain _ _ _ _ h
          | updateRenderData =>
              simp only [runChain] at h
              split at h
              · simp only [Except.ok.injEq] at h
                subst h
                exact List.prefix_rfl
              · split at h
                · exact List.IsPrefix.trans (List.prefix_append _ _)
                    (by simpa [emit] using ihChain _ _ _ _ h)
                · exact ihChain _ _ _ _ h
          | render =>
              simp only [runChain] at h
              split at h
              · simp only [Except.ok.injEq] at h
                subst h
                exact List.prefix_rfl
              · split at h
                · exact ihChain _ _ _ _ h
                · split at h
                  · rename_i d2 ctx9 heq
                    obtain ⟨-, -, tl, htl⟩ := commitComp_walker _ _ _ _ _ _ _ heq
                    have := ihChain _ _ _ _ h
                    rw [htl] at this
                    exact List.IsPrefix.trans (List.prefix_append _ _) this
                  · exact absurd h (by simp)
          | customIARender =>
              simp only [runChain] at h
              split at h
              · simp only [Except.ok.injEq] at h
                subst h
                exact List.prefix_rfl
              · split at h
                · exact ihChain _ _ _ _ h
                · exact List.IsPrefix.trans (List.prefix_append _ _)
                    (by simpa [emit] using ihChain _ _ _ _ h)
          | children =>
              simp only [runChain] at h
              split at h
              · simp only [Except.ok.injEq] at h
                subst h
                exact List.prefix_rfl
              · split at h
                · rename_i cs1 ctx1 heq1
                  split at h
                  · rename_i t3 ctx3 heq2
                    simp only [Except.ok.injEq] at h
                    subst h
                    have hA : ctx.events <+: ctx1.events := by
                      simpa [setPO] using ihChildren _ _ _ _ _ _ heq1
                    have hB : ctx1.events <+: ctx3.events := by
                      simpa [setPO] using ihChain _ _ _ _ heq2
                    simpa [setCull] using hA.trans hB
                  · exact absurd h (by simp)
                · exact absurd h (by simp)
          | postUpdateRenderData =>
              simp only [runChain] at h
              split at h
              · simp only [Except.ok.injEq] at h
                subst h
                exact List.prefix_rfl
              · split at h
                · exact absurd h (by simp)
                · split at h
                  · exact List.IsPrefix.trans (List.prefix_append _ _)
                      (by simpa [emit] using ihChain _ _ _ _ h)
                  · exact ihChain _ _ _ _ h
          | postRender =>
              simp only [runChain] at h
              split at h
              · simp only [Except.ok.injEq] at h
                subst h
                exact List.prefix_rfl
              · split at h
                · exact absurd h (by simp)
                · split at h
                  · rename_i d2 ctx9 heq
                    obtain ⟨-, -, tl, htl⟩ := commitComp_walker _ _ _ _ _ _ _ heq
                    have := ihChain _ _ _ _ h
                    rw [htl] at this
                    exact List.IsPrefix.trans (List.prefix_append _ _) this
                  · exact absurd h (by simp)
      · intro wdf sc op cs ctx r h
        cases cs with
        | nil =>
            simp only [runChildren, Except.ok.injEq] at h
            subst h
            exact List.prefix_rfl
        | cons c rest =>
            simp only [runChildren] at h
            split at h
            · split at h
              · rename_i rest2 ctx3 heq
                simp only [Except.ok.injEq] at h
                subst h
                exact ihChildren _ _ _ _ _ (rest2, ctx3) heq
              · exact absurd h (by simp)
            · split at h
              · rename_i c2 ctx3 heq1
                split at h
                · rename_i rest2 ctx4 heq2
                  simp only [Except.ok.injEq] at h
                  subst h
                  have hA : (ctx.events ++ [Event.dispatch c.data.id (c.data.renderFlag ||| wdf)
                      ((c.data.opacity : ℚ) * op)]) <+: ctx3.events := by
                    simpa [emit, setCull, fastSetA] using ihDispatch _ _ _ heq1
                  have hB : ctx3.events <+: ctx4.events := ihChildren _ _ _ _ _ _ heq2
                  exact List.IsPrefix.trans (List.prefix_append _ _) (hA.trans hB)
                · exact absurd h (by simp)
              · exact absurd h (by simp)
      · intro t ctx r h
        simp only [runDispatch] at h
        split at h
        · simp only [Except.ok.injEq] at h
          subst h
          exact List.prefix_rfl
        · split at h
          · split at h
            · exact ihChain _ _ _ _ h
            · exact absurd h (by simp)
          · exact absurd h (by simp)

/-- Per-child behaviour of the `_children` loop: the output list has one
entry per input child; a skipped child (inactive in hierarchy or fully
transparent) comes out with exactly the forced dirty bits OR-ed into its
mask — written before the skip test; a visited child comes out with its
stored color restored bit-for-bit, and the trace contains its dispatch
event carrying the mask with forced bits and the cascaded alpha
`child opacity × accumulated opacity`. -/
theorem runChildren_pointwise :
    ∀ (cs : List NTree) (fuel wdf sc : Nat) (op : ℚ) (ctx : Ctx) (cs2 : List NTree) (ctx2 : Ctx),
      runChildren fuel wdf sc op cs ctx = .ok (cs2, ctx2) →
      cs2.length = cs.length ∧
      ∀ i (hi : i < cs.length),
        ((cs.get ⟨i, hi⟩).data.activeInHierarchy = false ∨ (cs.get ⟨i, hi⟩).data.opacity = 0 →
          (cs2.map fun x => x.data.renderFlag).getD i 0 =
            (cs.get ⟨i, hi⟩).data.renderFlag ||| wdf) ∧
        ((cs.get ⟨i, hi⟩).data.activeInHierarchy = true ∧ (cs.get ⟨i, hi⟩).data.opacity ≠ 0 →
          (cs2.map fun x => x.data.color).getD i { rgb := 0, alpha := 0 } =
            (cs.get ⟨i, hi⟩).data.color ∧
          Event.dispatch (cs.get ⟨i, hi⟩).data.id ((cs.get ⟨i, hi⟩).data.renderFlag ||| wdf)
            (((cs.get ⟨i, hi⟩).data.opacity : ℚ) * op) ∈ ctx2.events) := by
  intro cs
  induction cs with
  | nil =>
      intro fuel wdf sc op ctx cs2 ctx2 h
      cases fuel with
      | zero => exact absurd h (by simp [runChildren])
      | succ fuel =>
          simp only [runChildren, Except.ok.injEq, Prod.mk.injEq] at h
          obtain ⟨rfl, rfl⟩ := h
          exact ⟨rfl, fun i hi => absurd hi (Nat.not_lt_zero i)⟩
  | cons c rest ih =>
      intro fuel wdf sc op ctx cs2 ctx2 h
      cases fuel with
      | zero => exact absurd h (by simp [runChildren])
      | succ fuel =>
          simp only [runChildren] at h
          split at h
          · rename_i hcond
            split at h
            · rename_i rest2 ctx3 heq
              simp only [Except.ok.injEq, Prod.mk.injEq] at h
              obtain ⟨rfl, rfl⟩ := h
              obtain ⟨ihlen, ihpt⟩ := ih fuel wdf sc op ctx rest2 ctx3 heq
              refine ⟨by simp [ihlen], ?_⟩
              intro i hi
              cases i with
              | zero =>
                  constructor
                  · intro _
                    simp
                  · intro hvis
                    simp_all
              | succ j =>
                  have := ihpt j (by simpa using hi)
                  simpa using this
            · exact absurd h (by simp)
          · rename_i hcond
            split at h
            · rename_i c2 ctx3 heq1
              split at h
              · rename_i rest2 ctx4 heq2
                simp only [Except.ok.injEq, Prod.mk.injEq] at h
                obtain ⟨rfl, rfl⟩ := h
                obtain ⟨ihlen, ihpt⟩ := ih fuel wdf sc op ctx3 rest2 ctx4 heq2
                refine ⟨by simp [ihlen], ?_⟩
                intro i hi
                cases i with
                | zero =>
                    constructor
                    · intro hskip
                      simp_all
                    · intro hvis
                      refine ⟨by simp, ?_⟩
                      have h1 : Event.dispatch c.data.id (c.data.renderFlag ||| wdf)
                          ((c.data.opacity : ℚ) * op) ∈
                          (emit (setCull ctx (if c.data.groupIndex = 0 then sc
                            else 1 <<< c.data.groupIndex))
                            (Event.dispatch c.data.id (c.data.renderFlag ||| wdf)
                              ((c.data.opacity : ℚ) * op))).events := by
                        simp [emit]
                      have h2 := (events_monotone fuel).2.2 _ _ _ heq1
                      have h3 := (events_monotone fuel).2.1 _ _ _ _ _ _ heq2
                      exact h3.subset (h2.subset h1)
                | succ j =>
                    have := ihpt j (by simpa using hi)
                    simpa using this
              · exact absurd h (by simp)
            · exact absurd h (by simp)

/-- C9: for every direct child processed by the Children stage, the forced
dirty bits (WORLD_TRANSFORM when `worldMatDirty > 0`, COLOR when
`parentOpacityDirty > 0`) are OR-ed into the child's `_renderFlag` before
the inactive-in-hierarchy / zero-opacity skip test, so a skipped child
still comes out of the loop with those forced bits in its mask. -/
theorem c9_forced_bits_before_skip (fuel wdf sc : Nat) (op : ℚ) (cs : List NTree)
    (ctx : Ctx) (cs2 : List NTree) (ctx2 : Ctx)
    (hwdf : wdf = (if ctx.walker.worldMatDirty ≠ 0 then WORLD_TRANSFORM else 0) |||
                  (if ctx.walker.parentOpacityDirty ≠ 0 then COLOR else 0))
    (h : runChildren fuel wdf sc op cs ctx = .ok (cs2, ctx2))
    (i : Nat) (hi : i < cs.length)
    (hskip : (cs.get ⟨i, hi⟩).data.activeInHierarchy = false ∨
             (cs.get ⟨i, hi⟩).data.opacity = 0) :
    cs2.length = cs.length ∧
    (cs2.map fun x => x.data.renderFlag).getD i 0 =
      (cs.get ⟨i, hi⟩).data.renderFlag ||| wdf := by
  obtain ⟨hlen, hpt⟩ := runChildren_pointwise cs fuel wdf sc op ctx cs2 ctx2 h
  exact ⟨hlen, (hpt i hi).1 hskip⟩

/-- Witness for C9: the skipped child keeps the forced WORLD_TRANSFORM bit. -/
theorem c9_forced_bits_before_skip_witness :
    [c9child.withData { c9child.data with renderFlag := c9child.data.renderFlag ||| WORLD_TRANSFORM }].length =
      [c9child].length ∧
    ([c9child.withData { c9child.data with renderFlag := c9child.data.renderFlag ||| WORLD_TRANSFORM }].map
        fun x => x.data.renderFlag).getD 0 0 =
      ([c9child].get ⟨0, by decide⟩).data.renderFlag ||| WORLD_TRANSFORM :=
  c9_forced_bits_before_skip 5 WORLD_TRANSFORM 1 1 [c9child] c9ctx
    [c9child.withData { c9child.data with renderFlag := c9child.data.renderFlag ||| WORLD_TRANSFORM }]
    c9ctx (by decide) rfl 0 (by decide) (by decide)

/-- C7: for every child visited by a node's Children stage, the child's
stored color value is bit-for-bit identical after the dispatch-and-restore
to its value before; during the dispatch the child's alpha channel
transiently holds the cascaded value
`child._opacity × (parentOpacity × node._opacity / 255)`, recorded in the
child's dispatch event; no persistent effective-opacity field exists to be
written. -/
theorem c7_opacity_cascade_transient (fuel wdf sc : Nat) (op pO nodeOp : ℚ)
    (cs : List NTree) (ctx : Ctx) (cs2 : List NTree) (ctx2 : Ctx)
    (hop : op = pO * (nodeOp / 255))
    (h : runChildren fuel wdf sc op cs ctx = .ok (cs2, ctx2))
    (i : Nat) (hi : i < cs.length)
    (hvis : (cs.get ⟨i, hi⟩).data.activeInHierarchy = true ∧
            (cs.get ⟨i, hi⟩).data.opacity ≠ 0) :
    cs2.length = cs.length ∧
    (cs2.map fun x => x.data.color).getD i { rgb := 0, alpha := 0 } =
      (cs.get ⟨i, hi⟩).data.color ∧
    Event.dispatch (cs.get ⟨i, hi⟩).data.id ((cs.get ⟨i, hi⟩).data.renderFlag ||| wdf)
      (((cs.get ⟨i, hi⟩).data.opacity : ℚ) * op) ∈ ctx2.events := by
  obtain ⟨hlen, hpt⟩ := runChildren_pointwise cs fuel wdf sc op ctx cs2 ctx2 h
  exact ⟨hlen, ((hpt i hi).2 hvis).1, ((hpt i hi).2 hvis).2⟩

/-- Witness for C7: a dispatched child's color is restored and its dispatch
event carries the cascaded alpha. -/
theorem c7_opacity_cascade_transient_witness :
    [c7child.withData { c7child.data with cullingMask := 1 }].length = [c7child].length ∧
    ([c7child.withData { c7child.data with cullingMask := 1 }].map
        fun x => x.data.color).getD 0 { rgb := 0, alpha := 0 } =
      ([c7child].get ⟨0, by decide⟩).data.color ∧
    Event.dispatch ([c7child].get ⟨0, by decide⟩).data.id
        (([c7child].get ⟨0, by decide⟩).data.renderFlag ||| 0)
        ((([c7child].get ⟨0, by decide⟩).data.opacity : ℚ) * (1 * ((255 : ℚ) / 255))) ∈
      c7ctxOut.events :=
  c7_opacity_cascade_transient 5 0 1 (1 * ((255 : ℚ) / 255)) 1 255 [c7child] ctx0
    [c7child.withData { c7child.data with cullingMask := 1 }] c7ctxOut rfl rfl 0
    (by decide) (by decide)

